import Mathlib

/-!
Verification of the engine lifecycle and reconnect subsystems of the `aces`
desktop player (sources: `electron/main/engine.ts`, `electron/main/index.ts`,
`electron/main/installer.ts`).

The embedding is shallow: each HTTP call is modelled by its result (an
`Except` value: `.error` for a rejected request — network error or timeout —
and `.ok` for a resolved response body), JSON bodies are modelled by
structures with `Option` fields for fields that may be absent, and the
JavaScript functions become total Lean functions over those models.  Numeric
JSON payload fields are modelled as naturals.
-/

namespace Aces

/-- JavaScript truthiness of an optional string field: absent, null and the
empty string are falsy, every other string is truthy. -/
def truthyStr : Option String → Bool
  | none => false
  | some s => s ≠ ""

/-! ## Engine status model (`engine.ts`, `getStatus` / `waitForEngine`) -/

/-- Body of `result` in the `get_version` response: both fields may be
absent. -/
structure VersionResult where
  version : Option String
  platform : Option String
deriving DecidableEq

/-- JSON body of `GET /webui/api/service?method=get_version`: the `result`
field may be absent (an object, hence truthy whenever present). -/
structure VersionBody where
  result : Option VersionResult
deriving DecidableEq

/-- `EngineStatus` as in `engine.ts`. -/
structure EngineStatus where
  running : Bool
  version : Option String := none
  platform : Option String := none
  error : Option String := none
deriving DecidableEq

/-- `EngineManager.getStatus` (engine.ts lines 533-551): on any rejected
request return `{running := false}`; on a resolved body, `running := true`
with whatever `version` / `platform` the `result` object carries (possibly
none) when `result` is present, else `{running := false}`. -/
def getStatus : Except String VersionBody → EngineStatus
  | .error _ => { running := false }
  | .ok body =>
    match body.result with
    | some r => { running := true, version := r.version, platform := r.platform }
    | none => { running := false }

/-- Readiness test of one poll iteration inside `EngineManager.waitForEngine`
(engine.ts lines 275-288): the probe only succeeds when the resolved body
carries a truthy `result.version`. -/
def waitForEngineReady : Except String VersionBody → Bool
  | .error _ => false
  | .ok body =>
    match body.result with
    | some r => truthyStr r.version
    | none => false

/-- Outcome of the status check inside `EngineManager.ensureRunning`
(engine.ts lines 306-321). -/
inductive EnsureAction
  | alreadyRunning
  | callStart
deriving DecidableEq

/-- `EngineManager.ensureRunning` status decision: return immediately when
`getStatus` reports running, otherwise fall through to `start()`. -/
def ensureRunning (probe : Except String VersionBody) : EnsureAction :=
  if (getStatus probe).running then .alreadyRunning else .callStart

/-! ## Stream statistics model (`engine.ts`, `getStreamStats`) -/

/-- `StreamStats` as in `engine.ts`. -/
structure StreamStats where
  status : String
  peers : Nat
  speedDown : Nat
  speedUp : Nat
  downloaded : Nat
  uploaded : Nat
  isLive : Bool
deriving DecidableEq

/-- The `response` object of the stats endpoint body; every field may be
absent. -/
structure StatsResult where
  status : Option String
  peers : Option Nat
  speed_down : Option Nat
  speed_up : Option Nat
  downloaded : Option Nat
  uploaded : Option Nat
  is_live : Option Nat
deriving DecidableEq

/-- JSON body of a resolved stats request: `response` may be absent. -/
structure StatsBody where
  response : Option StatsResult
deriving DecidableEq

/-- JavaScript `x || d` on an optional string field: absent and the empty
string both fall back to the default. -/
def orElseStr (v : Option String) (d : String) : String :=
  match v with
  | some s => if s = "" then d else s
  | none => d

/-- The synthetic stats object built in the `catch` branch of
`getStreamStats` (engine.ts lines 613-621) and in the `acestream:stats`
handler rejection (installer.ts line 795). -/
def errorStats : StreamStats :=
  { status := "error", peers := 0, speedDown := 0, speedUp := 0
    downloaded := 0, uploaded := 0, isLive := false }

/-- `EngineManager.getStreamStats` (engine.ts lines 597-623): a rejected
request yields `errorStats`; a resolved body is read through optional
chaining with `|| 0` / `|| "unknown"` defaults, the speed fields are
multiplied by 1024, and `isLive` is `is_live === 1`. -/
def getStreamStats : Except String StatsBody → StreamStats
  | .error _ => errorStats
  | .ok body =>
    let result := body.response
    { status := orElseStr (result.bind StatsResult.status) "unknown"
      peers := (result.bind StatsResult.peers).getD 0
      speedDown := ((result.bind StatsResult.speed_down).getD 0) * 1024
      speedUp := ((result.bind StatsResult.speed_up).getD 0) * 1024
      downloaded := (result.bind StatsResult.downloaded).getD 0
      uploaded := (result.bind StatsResult.uploaded).getD 0
      isLive := (result.bind StatsResult.is_live) == some 1 }

/-! ## IPC handler validation (`installer.ts`, `setupIpcHandlers`) -/

/-- Character class `[a-fA-F0-9]` of `CONTENT_ID_REGEX` (installer.ts line
734). -/
def isHexCharJS (c : Char) : Bool :=
  ('0' ≤ c && c ≤ '9') || ('a' ≤ c && c ≤ 'f') || ('A' ≤ c && c ≤ 'F')

/-- `isValidContentId` (installer.ts lines 742-744): the string matches the
anchored pattern exactly when it consists of exactly 40 characters of the hex
class.  (The `typeof` guard is outside the model: inputs are strings.) -/
def isValidContentId (s : String) : Bool :=
  s.length == 40 && s.data.all isHexCharJS

/-- Property stated by the specification: the input matches
`[a-fA-F0-9]` at each of exactly 40 positions. -/
def MatchesHex40 (s : String) : Prop :=
  s.data.length = 40 ∧
    ∀ c ∈ s.data, ('0' ≤ c ∧ c ≤ '9') ∨ ('a' ≤ c ∧ c ≤ 'f') ∨ ('A' ≤ c ∧ c ≤ 'F')

instance (s : String) : Decidable (MatchesHex40 s) := by
  unfold MatchesHex40; infer_instance

/-- `ALLOWED_API_HOST` (installer.ts line 737). -/
def ALLOWED_API_HOST : String := "http://127.0.0.1:6878/"

/-- `isValidApiUrl` (installer.ts lines 749-751): JavaScript
`url.startsWith(ALLOWED_API_HOST)`, a character-level whole-string test
because the allowed host is pure ASCII. -/
def isValidApiUrl (url : String) : Bool :=
  ALLOWED_API_HOST.data.isPrefixOf url.data

/-- Property stated by the specification: the url starts with the fixed
local origin. -/
def StartsWithAllowedHost (url : String) : Prop :=
  ∃ rest : String, url = ALLOWED_API_HOST ++ rest

/-- Result of the `acestream:play` IPC handler body (installer.ts lines
778-790) up to the first interaction beyond validation: either the typed
failure object is returned with no network or engine interaction, or the
content id is forwarded to `engineManager.startPlayback`. -/
inductive PlayOutcome
  | rejected (error : String)
  | forwarded (contentId : String)
deriving DecidableEq

/-- `acestream:play` handler validation step. -/
def handleAcestreamPlay (contentId : String) : PlayOutcome :=
  if isValidContentId contentId then .forwarded contentId
  else .rejected "Invalid content ID format. Expected 40-character hex string."

/-- Result of the `acestream:stats` IPC handler body (installer.ts lines
792-798): either the synthetic error-stats object is returned with no
network call, or the url is forwarded to `engineManager.getStreamStats`. -/
inductive StatsOutcome
  | syntheticError (stats : StreamStats)
  | fetch (statUrl : String)
deriving DecidableEq

/-- `acestream:stats` handler validation step. -/
def handleAcestreamStats (statUrl : String) : StatsOutcome :=
  if isValidApiUrl statUrl then .fetch statUrl
  else .syntheticError errorStats

/-- Result of the `acestream:stop` IPC handler body (installer.ts lines
800-807): either the typed failure object is returned with no network call,
or the url is forwarded to `engineManager.stopPlayback`. -/
inductive StopOutcome
  | rejected (error : String)
  | fetch (commandUrl : String)
deriving DecidableEq

/-- `acestream:stop` handler validation step. -/
def handleAcestreamStop (commandUrl : String) : StopOutcome :=
  if isValidApiUrl commandUrl then .fetch commandUrl
  else .rejected "Invalid command URL"

/-! ## Reconnect state machine (`index.ts`, `AppContent` stats-poll effect)

The retry state of the stats-polling effect (index.ts lines 413-417 and
508-568) consists of the `retryCount` React state, the `isRetryingRef`
reentrancy guard, and the pending `retryTimeoutRef` timer (modelled by the
delay it was scheduled with).  One poll tick applies the error check
(lines 513-549) and then the recovery check (lines 552-555); a pending timer
firing runs the restart callback (lines 519-548), which increments
`retryCount` on success and on failure alike and clears the guard.

An important asymmetry: `retryCount` is React state, so the value a tick
compares against the cap is the one captured by the effect closure that
registered the interval (the committed counter at that render), while
`isRetryingRef` and `retryTimeoutRef` are refs read and written live.  A
tick suspends in `await getStats` (line 509) before running its guards, and
committing a counter change cannot revoke a tick already suspended there, so
a tick can resume with a stale snapshot.  The per-tick functions below take
the tick's own view of the state; the trace semantics further down makes the
in-flight ticks and their snapshots explicit. -/

/-- `MAX_RETRIES` (index.ts line 416). -/
def MAX_RETRIES : Nat := 5

/-- `RETRY_INTERVALS` (index.ts line 417). -/
def RETRY_INTERVALS : List Nat := [3000, 5000, 10000, 15000, 30000]

/-- Delay chosen for a retry scheduled at the given attempt count:
`RETRY_INTERVALS[Math.min(retryCount, RETRY_INTERVALS.length - 1)]`
(index.ts line 515).  The index is always in bounds, so the `getD` default
is never used. -/
def retryDelay (retryCount : Nat) : Nat :=
  RETRY_INTERVALS.getD (min retryCount (RETRY_INTERVALS.length - 1)) 0

/-- Retry state as seen by one resuming poll tick: `retryCount` is the value
captured by the tick's effect closure (the committed counter at the render
that registered the interval), `isRetrying` and `retryTimeout` are the live
refs. -/
structure ReconnectState where
  retryCount : Nat
  isRetrying : Bool
  retryTimeout : Option Nat
deriving DecidableEq

/-- State at session start (and after session teardown, lines 496-506). -/
def initialReconnect : ReconnectState :=
  { retryCount := 0, isRetrying := false, retryTimeout := none }

/-- Guard of the error branch (index.ts line 513):
`newStats.status === "error" && !isRetryingRef.current && retryCount < MAX_RETRIES`. -/
def schedulesRetry (newStats : StreamStats) (st : ReconnectState) : Bool :=
  newStats.status == "error" && !st.isRetrying && st.retryCount < MAX_RETRIES

/-- One poll tick on a fetched stats sample (index.ts lines 512-555): when
the error guard passes, set the reentrancy guard and schedule the retry
timer with the backoff delay; then, when the recovery guard passes
(`status === "dl" && peers > 0 && retryCount > 0`), reset the attempt
counter to zero. -/
def onSample (newStats : StreamStats) (st : ReconnectState) : ReconnectState :=
  let st1 :=
    if schedulesRetry newStats st then
      { st with isRetrying := true, retryTimeout := some (retryDelay st.retryCount) }
    else st
  if newStats.status == "dl" && newStats.peers > 0 && st.retryCount > 0 then
    { st1 with retryCount := 0 }
  else st1

/-! ### Trace semantics of the polling loop

A tick is invoked by the live interval — capturing the committed counter as
its closure snapshot — and suspends in `await getStats` (lines 508-509); on
resumption it runs the error guard (line 513) against that snapshot while
reading `isRetryingRef` live, and the recovery guard (line 552) likewise.  A
scheduled timer later fires and runs the asynchronous restart callback
(lines 519-548): the `stop` and `play` awaits run first, then
`setRetryCount(prev => prev + 1)` commits the incremented counter whether
the restart succeeded or failed (lines 536, 539, 543) and the `finally`
clause clears `isRetryingRef` (line 546).  Committing a counter change
replaces the interval and clears a pending timeout (lines 570-577), but it
cannot revoke a tick already suspended in its stats fetch: that tick resumes
later with its stale snapshot.  The state below therefore carries the
snapshots of the suspended ticks and a flag for a restart in progress. -/

/-- State of the polling loop: the live committed `retryCount`, the live
`isRetryingRef` and `retryTimeoutRef` refs, the closure snapshots of the
ticks currently suspended in their stats fetch, and whether a fired retry
timer is still running its stop+play restart. -/
structure LoopState where
  retryCount : Nat
  isRetrying : Bool
  retryTimeout : Option Nat
  inflight : List Nat
  restarting : Bool
deriving DecidableEq

/-- Loop state at session start (lines 496-506). -/
def initialLoop : LoopState :=
  { retryCount := 0, isRetrying := false, retryTimeout := none
    inflight := [], restarting := false }

/-- Events of the polling loop: `tickStart` — the interval invokes a tick,
which captures the committed counter in its closure and suspends in its
stats fetch; `tickResume i s` — the `i`-th suspended tick resumes with
fetched sample `s` and runs the error and recovery checks; `timerFire` — the
pending retry timer fires and its stop+play restart begins; `restartDone` —
the running restart completes, increments the committed counter and clears
the reentrancy ref. -/
inductive LoopEvent
  | tickStart
  | tickResume (i : Nat) (s : StreamStats)
  | timerFire
  | restartDone
deriving DecidableEq

/-- Error-branch guard as run by a resuming tick (index.ts line 513): the
closure snapshot `snap` stands for the captured `retryCount`, the reentrancy
ref is read live. -/
def tickSchedules (s : StreamStats) (snap : Nat) (st : LoopState) : Bool :=
  s.status == "error" && !st.isRetrying && snap < MAX_RETRIES

/-- Recovery branch of a resuming tick (index.ts lines 552-555): the guard
compares the closure snapshot, and `setRetryCount(0)` commits only when the
live counter actually changes — in which case the effect re-subscription
also clears the pending timeout (lines 570-577). -/
def tickRecover (s : StreamStats) (snap : Nat) (st1 : LoopState) : LoopState :=
  if s.status == "dl" && s.peers > 0 && snap > 0 then
    if st1.retryCount = 0 then st1
    else { st1 with retryCount := 0, retryTimeout := none }
  else st1

/-- Body of a resuming tick (index.ts lines 512-555): the error check — set
the reentrancy ref and store the retry timer with the backoff delay indexed
by the snapshot — followed by the recovery check. -/
def tickApply (s : StreamStats) (snap : Nat) (st : LoopState) : LoopState :=
  tickRecover s snap
    (if tickSchedules s snap st then
      { st with isRetrying := true, retryTimeout := some (retryDelay snap) }
    else st)

/-- Step of the polling loop.  A resume for an index with no suspended tick,
a fire without a pending timer, and a completion without a running restart
cannot occur and leave the state unchanged. -/
def stepLoop (st : LoopState) : LoopEvent → LoopState
  | .tickStart => { st with inflight := st.inflight ++ [st.retryCount] }
  | .tickResume i s =>
    match st.inflight[i]? with
    | some snap => tickApply s snap { st with inflight := st.inflight.eraseIdx i }
    | none => st
  | .timerFire =>
    if st.retryTimeout.isSome then { st with retryTimeout := none, restarting := true }
    else st
  | .restartDone =>
    if st.restarting then
      { st with retryCount := st.retryCount + 1, isRetrying := false, restarting := false }
    else st

/-- Result of running a trace: final state, number of restart attempts that
ran to completion, and number of times a retry timer was scheduled. -/
structure LoopResult where
  final : LoopState
  restarts : Nat
  schedules : Nat
deriving DecidableEq

/-- Instrumented run of the polling loop over a trace. -/
def runLoop (st : LoopState) : List LoopEvent → LoopResult
  | [] => { final := st, restarts := 0, schedules := 0 }
  | e :: es =>
    let r := runLoop (stepLoop st e) es
    match e with
    | .tickResume i s =>
      match st.inflight[i]? with
      | some snap =>
        { r with schedules := (if tickSchedules s snap st then 1 else 0) + r.schedules }
      | none => r
    | .restartDone =>
      { r with restarts := (if st.restarting then 1 else 0) + r.restarts }
    | _ => r

/-- A resuming tick is fresh when its closure snapshot still equals the live
committed counter; a tick resumes stale exactly when its fetch spanned a
retry completion or a recovery reset. -/
def freshEvent (st : LoopState) : LoopEvent → Bool
  | .tickResume i _ =>
    match st.inflight[i]? with
    | some snap => snap == st.retryCount
    | none => true
  | _ => true

/-- A trace along which every resuming tick is fresh. -/
def freshRun (st : LoopState) : List LoopEvent → Bool
  | [] => true
  | e :: es => freshEvent st e && freshRun (stepLoop st e) es

/-- Canonical non-overlapping cycles: each sample's tick starts and resumes
at once, and the retry it schedules fires and completes before the next tick
starts. -/
def cycleRun (ss : List StreamStats) : List LoopEvent :=
  (ss.map (fun s =>
    [LoopEvent.tickStart, LoopEvent.tickResume 0 s, LoopEvent.timerFire,
     LoopEvent.restartDone])).flatten

/-- The samples observed along a trace, in order. -/
def eventSamples (es : List LoopEvent) : List StreamStats :=
  es.filterMap fun e =>
    match e with
    | .tickResume _ s => some s
    | _ => none

/-- Trace realizing the stale-closure race: four completed retry cycles
commit the counter to 4; a fifth error tick schedules retry #5; while that
restart's stop and play awaits run, the still-live interval invokes one more
tick, which captures the closure counter 4 and suspends in its stats fetch;
retry #5 then completes, committing the counter to 5 and clearing the
reentrancy ref; the suspended tick finally resumes with an error sample and
its stale snapshot 4, schedules a sixth retry, and that retry fires,
completes and commits the counter to 6. -/
def staleRaceEvents : List LoopEvent :=
  cycleRun (List.replicate 4 errorStats) ++
    [LoopEvent.tickStart, LoopEvent.tickResume 0 errorStats, LoopEvent.timerFire,
     LoopEvent.tickStart, LoopEvent.restartDone,
     LoopEvent.tickResume 0 errorStats, LoopEvent.timerFire, LoopEvent.restartDone]

/-- Invariant of fresh runs: the committed counter never exceeds the cap; a
pending timer implies the counter is below the cap, the reentrancy ref is
set and no restart is running; a running restart implies the counter is
below the cap and the reentrancy ref is set. -/
def LoopInv (st : LoopState) : Prop :=
  st.retryCount ≤ MAX_RETRIES ∧
    (st.retryTimeout.isSome = true →
      st.retryCount < MAX_RETRIES ∧ st.isRetrying = true ∧ st.restarting = false) ∧
    (st.restarting = true → st.retryCount < MAX_RETRIES ∧ st.isRetrying = true)

instance (st : LoopState) : Decidable (LoopInv st) := by
  unfold LoopInv; infer_instance

/-- Loop states at the retry cap with nothing scheduled or running and every
suspended tick's snapshot already at the cap. -/
def CappedState (st : LoopState) : Prop :=
  st.retryCount = MAX_RETRIES ∧ st.isRetrying = false ∧ st.retryTimeout = none ∧
    st.restarting = false ∧ ∀ x ∈ st.inflight, x = MAX_RETRIES

/-! ## Start coalescing (`engine.ts`, `EngineManager.start`, lines 163-184)

`start()` runs on the single-threaded event loop.  Its body is atomic except
at `await` points; the relevant suspension is `await this.getStatus()` (line
170), which sits between the `this.startPromise` null check (line 165) and
the assignment `this.startPromise = this._doStart()` (line 177).  The
assignment itself spawns synchronously: `_doStart` performs
`spawn(...)` before its first `await` (lines 189-241), so recording the
promise and spawning are one atomic step.  We model each caller of `start()`
as a small program over the shared manager state, advanced one atomic
segment at a time by an explicit interleaving schedule.  The engine is not
yet running, so every status probe resolves to `running: false` (the engine
needs up to 30 s to become ready, so a probe issued during the race window
reports not running even if a spawn has already happened). -/

/-- Shared manager state: the recorded in-flight start attempt (token of the
`startPromise`), how many spawns have been performed, a fresh-token counter,
and whether the status probe reports the engine as running. -/
structure MgrState where
  startPromise : Option Nat
  spawnCount : Nat
  nextToken : Nat
  engineRunning : Bool
deriving DecidableEq

/-- Position of one caller inside `start()`:
`entry` — about to run the `startPromise` null check (line 165);
`probing` — passed the check, suspended in `await this.getStatus()`;
`joined t` — returned the existing promise of attempt `t` (line 166);
`started t` — assigned `startPromise` and spawned attempt `t` (line 177);
`noStart` — saw `status.running` and returned without starting (line 173). -/
inductive CallerPhase
  | entry
  | probing
  | joined (t : Nat)
  | started (t : Nat)
  | noStart
deriving DecidableEq

/-- One atomic segment of `start()` for one caller. -/
def stepCaller (g : MgrState) : CallerPhase → MgrState × CallerPhase
  | .entry =>
    match g.startPromise with
    | some t => (g, .joined t)
    | none => (g, .probing)
  | .probing =>
    if g.engineRunning then (g, .noStart)
    else
      ({ g with
          startPromise := some g.nextToken
          spawnCount := g.spawnCount + 1
          nextToken := g.nextToken + 1 },
        .started g.nextToken)
  | ph => (g, ph)

/-- The attempt whose outcome a finished caller awaits: a caller that joined
the recorded promise awaits the same attempt as the caller that created
it. -/
def awaitedAttempt : CallerPhase → Option Nat
  | .joined t => some t
  | .started t => some t
  | _ => none

/-- Two concurrent callers of `start()` over the shared manager state. -/
structure TwoCallers where
  g : MgrState
  a : CallerPhase
  b : CallerPhase
deriving DecidableEq

/-- Advance one caller by one atomic segment (`true` steps caller `a`). -/
def schedStep (sys : TwoCallers) (stepA : Bool) : TwoCallers :=
  if stepA then
    let r := stepCaller sys.g sys.a
    { sys with g := r.1, a := r.2 }
  else
    let r := stepCaller sys.g sys.b
    { sys with g := r.1, b := r.2 }

/-- Run the two callers under an explicit interleaving schedule. -/
def runSched (sys : TwoCallers) (sched : List Bool) : TwoCallers :=
  sched.foldl schedStep sys

/-- Both callers at the entry of `start()`, no attempt recorded, nothing
spawned, engine not running. -/
def initTwoCallers : TwoCallers :=
  { g := { startPromise := none, spawnCount := 0, nextToken := 0, engineRunning := false }
    a := .entry, b := .entry }

/-! ## Process-tree reaping (`engine.ts`, `killProcessTree` /
`getChildProcesses`, Unix-like branch, lines 387-458)

The live process table is a list of `(pid, ppid)` pairs.  `getChildProcesses`
queries direct children of a pid (`pgrep -P` on macOS, `ps --ppid` on Linux —
both compute the same set) and recurses into each discovered child, listing
the child before its own descendants.  The source recursion is bounded by
the finite acyclic OS process table; the embedding makes the bound explicit
with a fuel argument, and callers pass fuel exceeding the table size, which
is enough for any acyclic table.  `process.kill(pid, "SIGKILL")` on a dead
pid throws `ESRCH`; each kill sits in its own `try`/`catch` that swallows
the error (lines 400-404, 411-414). -/

/-- Direct children of a pid in the process table. -/
def directChildren (table : List (Nat × Nat)) (pid : Nat) : List Nat :=
  (table.filter (fun e => e.2 == pid)).map Prod.fst

/-- `getChildProcesses` (lines 425-458): every descendant of the parent pid,
each child listed before its own descendants. -/
def getChildProcesses (fuel : Nat) (table : List (Nat × Nat)) (parentPid : Nat) : List Nat :=
  match fuel with
  | 0 => []
  | fuel + 1 =>
    ((directChildren table parentPid).map
      (fun c => c :: getChildProcesses fuel table c)).flatten

/-- `process.kill(pid, "SIGKILL")`: removes a live pid from the alive set,
raises (`ESRCH`) for a dead one. -/
def killPid (alive : List Nat) (pid : Nat) : Except Unit (List Nat) :=
  if pid ∈ alive then .ok (alive.erase pid) else .error ()

/-- One guarded kill: `try { process.kill(...) } catch { /* swallowed */ }`.
The state carries the alive set and the count of swallowed kill failures. -/
def killPidTry (st : List Nat × Nat) (pid : Nat) : List Nat × Nat :=
  match killPid st.1 pid with
  | .ok alive2 => (alive2, st.2)
  | .error _ => (st.1, st.2 + 1)

/-- Observable outcome of one `killProcessTree` call: the pids signalled in
order, the pids still alive afterwards, and how many kill failures were
caught and swallowed.  The function is total: no error reaches the
caller. -/
structure KillResult where
  signals : List Nat
  alive : List Nat
  swallowed : Nat
deriving DecidableEq

/-- `killProcessTree` (Unix-like branch, lines 393-415): enumerate all
descendants first, signal each of them in enumeration order, then signal the
root, every kill individually guarded. -/
def killProcessTree (table : List (Nat × Nat)) (pid : Nat) : KillResult :=
  let childPids := getChildProcesses (table.length + 1) table pid
  let afterChildren := childPids.foldl killPidTry (table.map Prod.fst, 0)
  let afterRoot := killPidTry afterChildren pid
  { signals := childPids ++ [pid], alive := afterRoot.1, swallowed := afterRoot.2 }

/-- Process table left over after some pids died: only rows whose pid is
still alive remain visible to the OS process-listing tools. -/
def pruneTable (table : List (Nat × Nat)) (alive : List Nat) : List (Nat × Nat) :=
  table.filter (fun e => alive.contains e.1)

/-- Concrete tree with two levels of descendants: root 1 (parented by the
fictitious pid 0), children 2 and 4, grandchild 3 under 2, grandchild 5
under 4. -/
def procTable0 : List (Nat × Nat) := [(1, 0), (2, 1), (3, 2), (4, 1), (5, 4)]

/-! ## Theorems -/

/-- C10: a status response whose body carries a truthy `result` object but no
`version` field makes `getStatus` report `running := true` (with the version
absent) and makes `ensureRunning` treat the engine as already running, while
the very same payload never satisfies the readiness probe used by
`waitForEngine` inside `start()`. -/
theorem getStatus_accepts_versionless_result (r : VersionResult)
    (h : r.version = none) :
    getStatus (.ok ⟨some r⟩) =
      { running := true, version := none, platform := r.platform } ∧
    waitForEngineReady (.ok ⟨some r⟩) = false ∧
    ensureRunning (.ok ⟨some r⟩) = .alreadyRunning := by
  refine ⟨?_, ?_, ?_⟩ <;>
    simp [getStatus, waitForEngineReady, ensureRunning, truthyStr, h]

/-- Witness for `getStatus_accepts_versionless_result` at a concrete
payload. -/
theorem getStatus_accepts_versionless_result_witness :
    getStatus (.ok ⟨some ⟨none, some "win"⟩⟩) =
      { running := true, version := none, platform := some "win" } ∧
    waitForEngineReady (.ok ⟨some ⟨none, some "win"⟩⟩) = false ∧
    ensureRunning (.ok ⟨some ⟨none, some "win"⟩⟩) = .alreadyRunning :=
  getStatus_accepts_versionless_result ⟨none, some "win"⟩ rfl

/-- C6 counterexample: a stats request that resolves with a malformed body —
no `response` object — returns status `"unknown"`, not the synthetic
`"error"` object the claim requires for every malformed response. -/
theorem getStreamStats_malformed_not_error :
    getStreamStats (.ok ⟨none⟩) =
      { status := "unknown", peers := 0, speedDown := 0, speedUp := 0
        downloaded := 0, uploaded := 0, isLive := false } ∧
    getStreamStats (.ok ⟨none⟩) ≠ errorStats := by
  exact ⟨rfl, by decide⟩

/-- C6 amended: `getStreamStats` never throws; every rejected fetch (network
error or timeout, whatever the reason) yields the synthetic error-stats
object, while a fetch that resolves with a body missing the `response`
object yields status `"unknown"` with all numeric fields zero and
`isLive := false`. -/
theorem getStreamStats_total_on_failures :
    (∀ reason : String, getStreamStats (.error reason) = errorStats) ∧
    getStreamStats (.ok ⟨none⟩) =
      { status := "unknown", peers := 0, speedDown := 0, speedUp := 0
        downloaded := 0, uploaded := 0, isLive := false } :=
  ⟨fun _ => rfl, rfl⟩

/-- C3: the delay scheduled for attempt `n` is the `n`-th entry of the fixed
schedule while `n` is in range, is clamped to the last entry (30000 ms) for
every `n ≥ 4`, and is exactly the delay the error branch stores in the retry
timer. -/
theorem retryDelay_follows_schedule (n : Nat) :
    (∀ h : n < RETRY_INTERVALS.length, retryDelay n = RETRY_INTERVALS.get ⟨n, h⟩) ∧
    (4 ≤ n → retryDelay n = 30000) ∧
    (∀ (s : StreamStats) (st : ReconnectState), schedulesRetry s st = true →
      (onSample s st).retryTimeout = some (retryDelay st.retryCount)) := by
  refine ⟨?_, ?_, ?_⟩
  · intro h
    have h5 : n < 5 := by simpa [RETRY_INTERVALS] using h
    interval_cases n <;> rfl
  · intro h
    simp [retryDelay, RETRY_INTERVALS, Nat.min_eq_right h]
  · intro s st hs
    have hstat : s.status = "error" := by
      simp only [schedulesRetry, Bool.and_eq_true, beq_iff_eq] at hs
      exact hs.1.1
    have hdl : (("error" : String) == "dl") = false := by decide
    simp [onSample, hs, hstat, hdl]

/-- Witness for `retryDelay_follows_schedule` at concrete attempt numbers
and a concrete scheduling state. -/
theorem retryDelay_follows_schedule_witness :
    retryDelay 2 = 10000 ∧ retryDelay 9 = 30000 ∧
    (onSample errorStats initialReconnect).retryTimeout = some (retryDelay 0) :=
  ⟨((retryDelay_follows_schedule 2).1 (by decide)).trans (by decide),
   (retryDelay_follows_schedule 9).2.1 (by decide),
   (retryDelay_follows_schedule 0).2.2 errorStats initialReconnect (by decide)⟩

/-- C4: a searching-for-peers sample (status `"dl"`, zero peers, zero
download speed) never schedules a restart — it leaves the retry state
untouched — and only a sample whose status is exactly `"error"` can pass the
scheduling guard. -/
theorem searching_sample_never_schedules (st : ReconnectState) (s : StreamStats) :
    (s.status = "dl" → s.peers = 0 → s.speedDown = 0 →
      schedulesRetry s st = false ∧ onSample s st = st) ∧
    (schedulesRetry s st = true → s.status = "error") := by
  constructor
  · intro hdl hp _
    have hde : (("dl" : String) == "error") = false := by decide
    have hsr : schedulesRetry s st = false := by
      simp [schedulesRetry, hdl, hde]
    refine ⟨hsr, ?_⟩
    simp [onSample, hsr, hdl, hp]
  · intro h
    simp only [schedulesRetry, Bool.and_eq_true, beq_iff_eq] at h
    exact h.1.1

/-- Witness for `searching_sample_never_schedules` at a concrete searching
sample and a concrete error sample. -/
theorem searching_sample_never_schedules_witness :
    (schedulesRetry ⟨"dl", 0, 0, 0, 0, 0, true⟩ ⟨2, false, none⟩ = false ∧
     onSample ⟨"dl", 0, 0, 0, 0, 0, true⟩ ⟨2, false, none⟩ = ⟨2, false, none⟩) ∧
    errorStats.status = "error" :=
  ⟨(searching_sample_never_schedules _ _).1 rfl rfl rfl,
   (searching_sample_never_schedules initialReconnect errorStats).2 (by decide)⟩

/-- C5: a healthy sample (status `"dl"`, positive peer count) observed while
the attempt counter is positive resets the counter to zero. -/
theorem recovery_resets_retry_count (st : ReconnectState) (s : StreamStats)
    (hdl : s.status = "dl") (hp : 0 < s.peers) (hc : 0 < st.retryCount) :
    (onSample s st).retryCount = 0 := by
  have hde : (("dl" : String) == "error") = false := by decide
  have hsr : schedulesRetry s st = false := by
    simp [schedulesRetry, hdl, hde]
  simp [onSample, hsr, hdl, hp, hc]

/-- Witness for `recovery_resets_retry_count` at a concrete recovered
sample. -/
theorem recovery_resets_retry_count_witness :
    (onSample ⟨"dl", 3, 1024, 0, 10, 0, true⟩ ⟨2, false, none⟩).retryCount = 0 :=
  recovery_resets_retry_count _ _ rfl (by decide) (by decide)

/-- The embedded `isValidContentId` test agrees with the 40-hex pattern of
the specification. -/
theorem isValidContentId_iff (s : String) :
    isValidContentId s = true ↔ MatchesHex40 s := by
  unfold isValidContentId MatchesHex40 isHexCharJS
  rw [show s.length = s.data.length from rfl]
  simp [Bool.and_eq_true, List.all_eq_true, decide_eq_true_eq, Bool.or_eq_true, or_assoc]

/-- C7: an input failing the 40-hex pattern is rejected by the play handler
with the typed failure before any network or engine interaction, and a
matching input is forwarded unchanged to `startPlayback`. -/
theorem play_rejects_invalid_content_id (s : String) :
    (¬ MatchesHex40 s →
      handleAcestreamPlay s =
        .rejected "Invalid content ID format. Expected 40-character hex string.") ∧
    (MatchesHex40 s → handleAcestreamPlay s = .forwarded s) := by
  constructor
  · intro h
    have hv : isValidContentId s = false := by
      cases hb : isValidContentId s with
      | false => rfl
      | true => exact absurd ((isValidContentId_iff s).mp hb) h
    simp [handleAcestreamPlay, hv]
  · intro h
    have hv : isValidContentId s = true := (isValidContentId_iff s).mpr h
    simp [handleAcestreamPlay, hv]

/-- Witness for `play_rejects_invalid_content_id` at a concrete invalid and
a concrete valid content id. -/
theorem play_rejects_invalid_content_id_witness :
    handleAcestreamPlay "not-a-valid-content-id" =
      .rejected "Invalid content ID format. Expected 40-character hex string." ∧
    handleAcestreamPlay "94c2fd8fb9bc8f2fc71a2cbe9d4b866f227a0209" =
      .forwarded "94c2fd8fb9bc8f2fc71a2cbe9d4b866f227a0209" :=
  ⟨(play_rejects_invalid_content_id _).1 (by decide),
   (play_rejects_invalid_content_id _).2 (by decide)⟩

/-- The embedded `isValidApiUrl` test agrees with the fixed-origin property
of the specification. -/
theorem isValidApiUrl_iff (url : String) :
    isValidApiUrl url = true ↔ StartsWithAllowedHost url := by
  unfold isValidApiUrl StartsWithAllowedHost
  rw [ List.isPrefixOf_iff_prefix]
  constructor
  · rintro ⟨t, ht⟩
    refine ⟨⟨t⟩, String.ext ?_⟩
    rw [String.data_append]
    exact ht.symm
  · rintro ⟨rest, rfl⟩
    exact ⟨rest.data, (String.data_append _ _).symm⟩

/-- C8: a stats or stop url that does not start with the fixed local origin
is rejected before any network call — the stats handler returns the
synthetic error-stats object and the stop handler the typed failure, neither
throwing — while a url with the allowed origin is forwarded unchanged. -/
theorem stats_stop_reject_foreign_urls (url : String) :
    (¬ StartsWithAllowedHost url →
      handleAcestreamStats url = .syntheticError errorStats ∧
      handleAcestreamStop url = .rejected "Invalid command URL") ∧
    (StartsWithAllowedHost url →
      handleAcestreamStats url = .fetch url ∧
      handleAcestreamStop url = .fetch url) := by
  constructor
  · intro h
    have hv : isValidApiUrl url = false := by
      cases hb : isValidApiUrl url with
      | false => rfl
      | true => exact absurd ((isValidApiUrl_iff url).mp hb) h
    constructor <;> simp [handleAcestreamStats, handleAcestreamStop, hv]
  · intro h
    have hv : isValidApiUrl url = true := (isValidApiUrl_iff url).mpr h
    constructor <;> simp [handleAcestreamStats, handleAcestreamStop, hv]

/-- Witness for `stats_stop_reject_foreign_urls` at a concrete foreign url
and a concrete local url. -/
theorem stats_stop_reject_foreign_urls_witness :
    (handleAcestreamStats "http://evil.example/stat" = .syntheticError errorStats ∧
     handleAcestreamStop "http://evil.example/stat" = .rejected "Invalid command URL") ∧
    handleAcestreamStats "http://127.0.0.1:6878/ace/stat/x" =
      .fetch "http://127.0.0.1:6878/ace/stat/x" :=
  ⟨(stats_stop_reject_foreign_urls _).1
      (fun hc => absurd ((isValidApiUrl_iff _).mpr hc) (by decide)),
   ((stats_stop_reject_foreign_urls _).2 ((isValidApiUrl_iff _).mp (by decide))).1⟩

/-- C1 counterexample: two concurrent callers of `start()` that both pass
the `startPromise` null check while suspended in the status probe each
record an attempt and each spawn — two spawns for one set of concurrent
callers — and they await two different attempts, not one shared one.  The
schedule steps caller `a` through the null check, then caller `b` through
the null check, then each through the probe resumption. -/
theorem start_race_two_spawns :
    (runSched initTwoCallers [true, false, true, false]).g.spawnCount = 2 ∧
    awaitedAttempt (runSched initTwoCallers [true, false, true, false]).a = some 0 ∧
    awaitedAttempt (runSched initTwoCallers [true, false, true, false]).b = some 1 := by
  decide

/-- C1 amended: once an attempt has been recorded in `startPromise`, a
caller entering `start()` is coalesced onto it — the manager state is
unchanged, so no new spawn occurs, and the caller awaits exactly the
recorded attempt, hence observes that attempt's outcome. -/
theorem start_coalesces_after_record (g : MgrState) (t : Nat)
    (h : g.startPromise = some t) :
    stepCaller g .entry = (g, .joined t) ∧
    (stepCaller g .entry).1.spawnCount = g.spawnCount ∧
    awaitedAttempt (stepCaller g .entry).2 = some t := by
  simp [stepCaller, h, awaitedAttempt]

/-- Witness for `start_coalesces_after_record` at a concrete manager
state. -/
theorem start_coalesces_after_record_witness :
    stepCaller ⟨some 7, 1, 8, false⟩ .entry = (⟨some 7, 1, 8, false⟩, .joined 7) :=
  (start_coalesces_after_record ⟨some 7, 1, 8, false⟩ 7 rfl).1

/-- C9 counterexample: on the two-level tree of `procTable0` the kill
signals go out in the order `[2, 3, 4, 5, 1]` — pid 2 is signalled before
its own child 3, so descendants are reaped top-down (each parent before its
children), not bottom-up as the claim states. -/
theorem killProcessTree_not_bottom_up :
    (killProcessTree procTable0 1).signals = [2, 3, 4, 5, 1] ∧
    (2, 1) ∈ procTable0 ∧ (3, 2) ∈ procTable0 ∧
    (killProcessTree procTable0 1).signals.indexOf 2 <
      (killProcessTree procTable0 1).signals.indexOf 3 := by
  decide

/-- C9 amended: on the two-level tree, `killProcessTree` signals every
descendant before the root — in top-down enumeration order, each child
before its own descendants — and kills the whole tree with no failure; a
second call on the now-dead tree raises no error to the caller, its single
kill failure (the already-gone root) being caught and swallowed. -/
theorem killProcessTree_descendants_then_root :
    (killProcessTree procTable0 1).signals = [2, 3, 4, 5, 1] ∧
    (killProcessTree procTable0 1).alive = [] ∧
    (killProcessTree procTable0 1).swallowed = 0 ∧
    killProcessTree (pruneTable procTable0 (killProcessTree procTable0 1).alive) 1 =
      { signals := [1], alive := [], swallowed := 1 } := by
  decide

/-- An instrumented loop run splits over trace concatenation. -/
theorem runLoop_append (st : LoopState) (es1 es2 : List LoopEvent) :
    runLoop st (es1 ++ es2) =
      { final := (runLoop (runLoop st es1).final es2).final
        restarts :=
          (runLoop st es1).restarts + (runLoop (runLoop st es1).final es2).restarts
        schedules :=
          (runLoop st es1).schedules + (runLoop (runLoop st es1).final es2).schedules } := by
  induction es1 generalizing st with
  | nil => simp [runLoop]
  | cons e es ih =>
    cases e with
    | tickStart => simp [runLoop, ih, Nat.add_assoc]
    | tickResume i s =>
      cases h : st.inflight[i]? with
      | none => simp [runLoop, h, ih, Nat.add_assoc]
      | some snap => simp [runLoop, h, ih, Nat.add_assoc]
    | timerFire => simp [runLoop, ih, Nat.add_assoc]
    | restartDone => simp [runLoop, ih, Nat.add_assoc]

/-- The final state of an instrumented loop run is the fold of the step
function. -/
theorem runLoop_final_eq (st : LoopState) (es : List LoopEvent) :
    (runLoop st es).final = es.foldl stepLoop st := by
  induction es generalizing st with
  | nil => rfl
  | cons e es ih =>
    cases e with
    | tickStart => simp [runLoop, List.foldl, ih]
    | tickResume i s =>
      cases h : st.inflight[i]? with
      | none => simp [runLoop, h, ih]
      | some snap => simp [runLoop, h, ih]
    | timerFire => simp [runLoop, List.foldl, ih]
    | restartDone => simp [runLoop, List.foldl, ih]

/-- The recovery branch preserves the fresh-run invariant. -/
theorem tickRecover_inv (s : StreamStats) (snap : Nat) (st1 : LoopState)
    (h : LoopInv st1) : LoopInv (tickRecover s snap st1) := by
  obtain ⟨h1, h2, h3⟩ := h
  unfold tickRecover
  by_cases hg : (s.status == "dl" && decide (s.peers > 0) && decide (snap > 0)) = true
  · rw [if_pos hg]
    by_cases hz : st1.retryCount = 0
    · rw [if_pos hz]
      exact ⟨h1, h2, h3⟩
    · rw [if_neg hz]
      refine ⟨by simp [MAX_RETRIES], by simp, ?_⟩
      intro hres
      exact ⟨by simp [MAX_RETRIES], (h3 hres).2⟩
  · rw [if_neg hg]
    exact ⟨h1, h2, h3⟩

/-- A tick that resumes fresh — its snapshot equal to the live counter —
preserves the fresh-run invariant. -/
theorem tickApply_fresh_inv (s : StreamStats) (st : LoopState)
    (h : LoopInv st) : LoopInv (tickApply s st.retryCount st) := by
  obtain ⟨h1, h2, h3⟩ := h
  unfold tickApply
  by_cases hsch : tickSchedules s st.retryCount st = true
  · have hparts : st.isRetrying = false ∧ st.retryCount < MAX_RETRIES := by
      simp only [tickSchedules, Bool.and_eq_true, Bool.not_eq_true',
        decide_eq_true_eq] at hsch
      exact ⟨hsch.1.2, hsch.2⟩
    have hrest : st.restarting = false := by
      cases hres : st.restarting
      · rfl
      · exact absurd (h3 hres).2 (by simp [hparts.1])
    rw [if_pos hsch]
    refine tickRecover_inv _ _ _ ⟨h1, ?_, ?_⟩
    · intro _
      exact ⟨hparts.2, rfl, hrest⟩
    · intro hres
      exact absurd hres (by simp [hrest])
  · rw [if_neg hsch]
    exact tickRecover_inv _ _ _ ⟨h1, h2, h3⟩

/-- Every fresh step of the polling loop preserves the invariant. -/
theorem stepLoop_preserves_inv (st : LoopState) (e : LoopEvent)
    (h : LoopInv st) (hf : freshEvent st e = true) : LoopInv (stepLoop st e) := by
  obtain ⟨h1, h2, h3⟩ := h
  cases e with
  | tickStart => exact ⟨h1, h2, h3⟩
  | tickResume i s =>
    simp only [stepLoop]
    cases hin : st.inflight[i]? with
    | none => exact ⟨h1, h2, h3⟩
    | some snap =>
      have hsnap : snap = st.retryCount := by
        have hf2 := hf
        simp only [freshEvent, hin, beq_iff_eq] at hf2
        exact hf2
      subst hsnap
      exact tickApply_fresh_inv s { st with inflight := st.inflight.eraseIdx i }
        ⟨h1, h2, h3⟩
  | timerFire =>
    simp only [stepLoop]
    by_cases ht : st.retryTimeout.isSome = true
    · rw [if_pos ht]
      obtain ⟨hc, hg, hn⟩ := h2 ht
      exact ⟨h1, by simp, fun _ => ⟨hc, hg⟩⟩
    · rw [if_neg ht]
      exact ⟨h1, h2, h3⟩
  | restartDone =>
    simp only [stepLoop]
    by_cases hr : st.restarting = true
    · rw [if_pos hr]
      obtain ⟨hc, hg⟩ := h3 hr
      exact ⟨hc, fun hts => absurd (h2 hts).2.2 (by simp [hr]), by simp⟩
    · rw [if_neg hr]
      exact ⟨h1, h2, h3⟩

/-- Folding a fresh trace from a state satisfying the invariant stays within
the invariant. -/
theorem freshRun_foldl_inv (es : List LoopEvent) (st : LoopState)
    (hf : freshRun st es = true) (h : LoopInv st) :
    LoopInv (es.foldl stepLoop st) := by
  induction es generalizing st with
  | nil => exact h
  | cons e es ih =>
    simp only [freshRun, Bool.and_eq_true] at hf
    exact ih _ hf.2 (stepLoop_preserves_inv st e h hf.1)

/-- One non-overlapping error cycle — tick starts and resumes, its retry
fires and completes — performs exactly one schedule and one restart and
increments the committed counter. -/
theorem runLoop_error_cycle (s : StreamStats) (n : Nat)
    (hs : s.status = "error") (hn : n < MAX_RETRIES) :
    runLoop ⟨n, false, none, [], false⟩
      [LoopEvent.tickStart, LoopEvent.tickResume 0 s, LoopEvent.timerFire,
       LoopEvent.restartDone] =
      { final := ⟨n + 1, false, none, [], false⟩, restarts := 1, schedules := 1 } := by
  have hts : tickSchedules s n ⟨n, false, none, [n], false⟩ = true := by
    simp [tickSchedules, hs, hn]
  have hts2 : tickSchedules s n ⟨n, false, none, [], false⟩ = true := by
    simp [tickSchedules, hs, hn]
  have hde : (("error" : String) == "dl") = false := by decide
  simp [runLoop, stepLoop, tickApply, tickRecover, hts, hts2, hs, hde]

/-- Running a block of non-overlapping error cycles adds one restart and one
schedule per sample while the cap is not reached. -/
theorem runLoop_errorCycles (ss : List StreamStats) (n : Nat)
    (hss : ∀ s ∈ ss, s.status = "error") (hlen : n + ss.length ≤ MAX_RETRIES) :
    runLoop ⟨n, false, none, [], false⟩ (cycleRun ss) =
      { final := ⟨n + ss.length, false, none, [], false⟩
        restarts := ss.length, schedules := ss.length } := by
  induction ss generalizing n with
  | nil => simp [cycleRun, runLoop]
  | cons s ss ih =>
    have h1 : s.status = "error" := hss s (by simp)
    have h2 : ∀ x ∈ ss, x.status = "error" := fun x hx => hss x (by simp [hx])
    have hn : n < MAX_RETRIES := by
      simp only [List.length_cons] at hlen; omega
    have hrest : (n + 1) + ss.length ≤ MAX_RETRIES := by
      simp only [List.length_cons] at hlen; omega
    have hsplit : cycleRun (s :: ss) =
        [LoopEvent.tickStart, LoopEvent.tickResume 0 s, LoopEvent.timerFire,
         LoopEvent.restartDone] ++ cycleRun ss := by
      simp [cycleRun]
    rw [hsplit, runLoop_append, runLoop_error_cycle s n h1 hn, ih (n + 1) h2 hrest]
    simp only [List.length_cons, LoopResult.mk.injEq, LoopState.mk.injEq,
      eq_self_iff_true, and_true, true_and]
    omega

/-- From a capped state, a continuation of error samples and loop events —
ticks may start and resume, even stale ones — neither schedules nor
completes any further restart. -/
theorem runLoop_capped (es : List LoopEvent) (st : LoopState)
    (hst : CappedState st)
    (hs : ∀ i s, LoopEvent.tickResume i s ∈ es → s.status = "error") :
    (runLoop st es).restarts = 0 ∧ (runLoop st es).schedules = 0 := by
  induction es generalizing st with
  | nil => exact ⟨rfl, rfl⟩
  | cons e es ih =>
    obtain ⟨hc, hg, ht, hr, hin⟩ := hst
    have hs2 : ∀ i s, LoopEvent.tickResume i s ∈ es → s.status = "error" :=
      fun i s hx => hs i s (by simp [hx])
    cases e with
    | tickStart =>
      have hnext : CappedState (stepLoop st .tickStart) := by
        refine ⟨hc, hg, ht, hr, ?_⟩
        intro x hx
        rcases List.mem_append.mp hx with hx1 | hx2
        · exact hin x hx1
        · simp only [List.mem_singleton] at hx2
          exact hx2.trans hc
      have := ih (stepLoop st .tickStart) hnext hs2
      simp [runLoop, this.1, this.2]
    | tickResume i s =>
      have hstat : s.status = "error" := hs i s (by simp)
      have hde : (("error" : String) == "dl") = false := by decide
      cases hidx : st.inflight[i]? with
      | none =>
        have := ih st ⟨hc, hg, ht, hr, hin⟩ hs2
        simp [runLoop, stepLoop, hidx, this.1, this.2]
      | some snap =>
        have hsnap : snap = MAX_RETRIES := by
          obtain ⟨hb, he⟩ := List.getElem?_eq_some_iff.mp hidx
          exact hin _ (he ▸ List.getElem_mem hb)
        have hnosch : tickSchedules s snap st = false := by
          simp [tickSchedules, hsnap, MAX_RETRIES]
        have hnosch2 :
            tickSchedules s snap { st with inflight := st.inflight.eraseIdx i } = false := by
          simp [tickSchedules, hsnap, MAX_RETRIES]
        have hnext : CappedState (stepLoop st (.tickResume i s)) := by
          have hstep : stepLoop st (.tickResume i s) =
              { st with inflight := st.inflight.eraseIdx i } := by
            simp [stepLoop, hidx, tickApply, tickRecover, hnosch2, hstat, hde]
          rw [hstep]
          refine ⟨hc, hg, ht, hr, ?_⟩
          intro x hx
          exact hin x (List.eraseIdx_subset _ i hx)
        have := ih (stepLoop st (.tickResume i s)) hnext hs2
        simp [runLoop, hidx, hnosch, this.1, this.2]
    | timerFire =>
      have hstep : stepLoop st .timerFire = st := by
        simp [stepLoop, ht]
      have := ih st ⟨hc, hg, ht, hr, hin⟩ hs2
      simp [runLoop, hstep, this.1, this.2]
    | restartDone =>
      have hstep : stepLoop st .restartDone = st := by
        simp [stepLoop, hr]
      have := ih st ⟨hc, hg, ht, hr, hin⟩ hs2
      simp [runLoop, hstep, hr, this.1, this.2]

/-- C2 amended: when no tick resumes stale — every tick runs its guard while
its captured counter snapshot still equals the committed counter — five
error samples whose scheduled retries each fire yield exactly five completed
restarts and five schedules, any continuation of error samples and loop
events schedules or completes no sixth, and on every fresh trace the
committed counter never exceeds `MAX_RETRIES`. -/
theorem reconnect_cap_without_stale_ticks (ss : List StreamStats)
    (tail : List LoopEvent)
    (hlen : ss.length = 5) (hss : ∀ s ∈ ss, s.status = "error")
    (htail : ∀ i s, LoopEvent.tickResume i s ∈ tail → s.status = "error") :
    (runLoop initialLoop (cycleRun ss ++ tail)).restarts = 5 ∧
    (runLoop initialLoop (cycleRun ss ++ tail)).schedules = 5 ∧
    (∀ es : List LoopEvent, freshRun initialLoop es = true →
      ((runLoop initialLoop es).final).retryCount ≤ MAX_RETRIES) := by
  have h0 : initialLoop = (⟨0, false, none, [], false⟩ : LoopState) := rfl
  have hrun := runLoop_errorCycles ss 0 hss (by simp [hlen, MAX_RETRIES])
  have h05 : (⟨0 + ss.length, false, none, [], false⟩ : LoopState) =
      ⟨MAX_RETRIES, false, none, [], false⟩ := by
    simp [hlen, MAX_RETRIES]
  have hcap : CappedState (⟨MAX_RETRIES, false, none, [], false⟩ : LoopState) := by
    refine ⟨rfl, rfl, rfl, rfl, ?_⟩
    intro x hx
    exact absurd hx (by simp)
  have htl := runLoop_capped tail ⟨MAX_RETRIES, false, none, [], false⟩ hcap htail
  refine ⟨?_, ?_, ?_⟩
  · simp only [h0, runLoop_append, hrun, h05, htl.1]
    simp [hlen]
  · simp only [h0, runLoop_append, hrun, h05, htl.2]
    simp [hlen]
  · intro es hf
    have hinv : LoopInv ((runLoop initialLoop es).final) := by
      rw [runLoop_final_eq]
      exact freshRun_foldl_inv es initialLoop hf (by decide)
    exact hinv.1

/-- Witness for `reconnect_cap_without_stale_ticks` at the concrete run of
five error cycles with an empty continuation. -/
theorem reconnect_cap_without_stale_ticks_witness :
    (runLoop initialLoop (cycleRun (List.replicate 5 errorStats) ++ [])).restarts = 5 ∧
    (runLoop initialLoop (cycleRun (List.replicate 5 errorStats) ++ [])).schedules = 5 ∧
    (∀ es : List LoopEvent, freshRun initialLoop es = true →
      ((runLoop initialLoop es).final).retryCount ≤ MAX_RETRIES) :=
  reconnect_cap_without_stale_ticks (List.replicate 5 errorStats) []
    (by decide) (by decide) (fun _ _ hx => nomatch hx)

/-- C2 counterexample: along `staleRaceEvents` — five error samples are
observed, no recovery sample ever arrives, and one tick fetched across the
completion of retry number five — the loop completes six restarts, schedules
a sixth retry, and commits the counter to 6, exceeding the claimed cap of 5.
The trace is not fresh: the sixth schedule comes from the tick whose
captured counter snapshot (4) no longer equals the committed counter (5). -/
theorem stale_tick_schedules_sixth :
    (runLoop initialLoop staleRaceEvents).restarts = 6 ∧
    (runLoop initialLoop staleRaceEvents).schedules = 6 ∧
    ((runLoop initialLoop staleRaceEvents).final).retryCount = 6 ∧
    eventSamples staleRaceEvents = List.replicate 6 errorStats ∧
    freshRun initialLoop staleRaceEvents = false := by
  decide

end Aces
